import Mathlib

/-!
Verification development for the memory-match mini-game engine
(`src/components/memory-game.tsx`).

The React component's hook state is embedded as an explicit record
`EngineState`; the `setTimeout` resolution callback is embedded as a queue of
`Pending` records (the closure captured by the timer: the card array at click
time, the match decision, and the `matches` value at click time).  Event
handlers become pure state-transition functions; JavaScript property access on
`undefined` (a thrown `TypeError`) is embedded as `Except JsError`.
-/

namespace MemoryGame

/-- The six lucide icons used by `CARD_CONFIGS` (Heart, Star, Sun, Moon,
Cloud, Flower2), embedded as an enumeration. -/
inductive Icon where
  | heart
  | star
  | sun
  | moon
  | cloud
  | flower2
deriving DecidableEq

/-- `type MemoryCard = { id; icon; isMatched; isFlipped; color }`. -/
structure MemoryCard where
  id : Nat
  icon : Icon
  isMatched : Bool
  isFlipped : Bool
  color : String
deriving DecidableEq

/-- `type GameState = "ready" | "playing" | "complete"` — the component keeps
it as a plain string (the `as GameState` cast on load is a no-op), so the
embedding keeps the string representation. -/
abbrev GameState := String

/-- `CARD_CONFIGS`: the six icon/color pairs. -/
def CARD_CONFIGS : List (Icon × String) :=
  [ (Icon.heart, "text-rose-500"),
    (Icon.star, "text-amber-500"),
    (Icon.sun, "text-yellow-500"),
    (Icon.moon, "text-purple-500"),
    (Icon.cloud, "text-sky-500"),
    (Icon.flower2, "text-emerald-500") ]

/-- The card list `createCards` builds before its final
`sort(() => Math.random() - 0.5)` shuffle: for each config index `k`, a pair
of cards with ids `2k` and `2k+1`, both face-down and unmatched.  The shuffle
is a random permutation, so a deck returned by `createCards` is an arbitrary
permutation of this list. -/
def createCardsBase : List MemoryCard :=
  (CARD_CONFIGS.enum).flatMap (fun p =>
    [ { id := p.1 * 2, icon := p.2.1, color := p.2.2,
        isMatched := false, isFlipped := false },
      { id := p.1 * 2 + 1, icon := p.2.1, color := p.2.2,
        isMatched := false, isFlipped := false } ])

/-- The closure captured by the `setTimeout` scheduled in `handleCardClick`:
`newCards` (the card array at click time), the computed `isMatch`, and the
`matches` value at click time (used as `matches + 1` inside the callback). -/
structure Pending where
  newCards : List MemoryCard
  isMatch : Bool
  capturedMatches : Nat
deriving DecidableEq

/-- The component's hook state (`gameState`, `cards`, `matches`,
`isChecking`) together with the queue of scheduled, not yet fired,
resolution timeouts (all timeouts use the same 800ms delay, so they fire in
FIFO order). -/
structure EngineState where
  gameState : GameState
  cards : List MemoryCard
  matchCount : Nat
  isChecking : Bool
  pending : List Pending
deriving DecidableEq

/-- The initial hook state: `"ready"`, a fresh deck (here a parameter, since
the shuffle is random), zero matches, not checking, no timer scheduled. -/
def initState (deck : List MemoryCard) : EngineState :=
  { gameState := "ready", cards := deck, matchCount := 0,
    isChecking := false, pending := [] }

/-- A JavaScript runtime exception.  Reading a property of `undefined`
(e.g. `cards[clickedIndex].isMatched` with `clickedIndex` out of range)
throws a `TypeError`. -/
inductive JsError where
  | typeError
deriving DecidableEq

/-- `card.isFlipped && !card.isMatched` — the filter predicate used both to
detect the second flip and inside the resolution callback. -/
def flippedUnmatched (c : MemoryCard) : Bool :=
  c.isFlipped && !c.isMatched

/-- `handleCardClick(clickedIndex)`.  Guard: `isChecking ||
cards[clickedIndex].isMatched || cards[clickedIndex].isFlipped` — note the
short-circuit: when `isChecking` is false and `clickedIndex` is out of range,
`cards[clickedIndex]` is `undefined` and the property read throws a
`TypeError`.  Otherwise the clicked card is flipped; if the flipped-unmatched
cards now number exactly two, `isChecking` is set and a resolution timeout
capturing `newCards`, `isMatch` and `matches` is scheduled. -/
def handleCardClick (clickedIndex : Nat) (s : EngineState) :
    Except JsError EngineState :=
  if s.isChecking then Except.ok s
  else
    match s.cards[clickedIndex]? with
    | none => Except.error JsError.typeError
    | some c =>
      if c.isMatched || c.isFlipped then Except.ok s
      else
        let newCards := s.cards.set clickedIndex { c with isFlipped := true }
        match newCards.filter flippedUnmatched with
        | [firstCard, secondCard] =>
          Except.ok { s with
            cards := newCards,
            isChecking := true,
            pending := s.pending ++
              [⟨newCards, firstCard.id / 2 == secondCard.id / 2, s.matchCount⟩] }
        | _ => Except.ok { s with cards := newCards }

/-- The body of the `setTimeout` callback: on a match, every
flipped-unmatched card of the captured `newCards` becomes matched, `matches`
becomes the captured value plus one, and the phase becomes `"complete"` when
that reaches `CARD_CONFIGS.length`; on a mismatch, every flipped-unmatched
card of the captured `newCards` flips back down.  Either way the captured
array (not the current one) is written back and `isChecking` is cleared. -/
def resolutionCallback (p : Pending) (s : EngineState) : EngineState :=
  if p.isMatch then
    { s with
      cards := p.newCards.map (fun c =>
        if flippedUnmatched c then { c with isMatched := true } else c),
      matchCount := p.capturedMatches + 1,
      gameState :=
        if p.capturedMatches + 1 = CARD_CONFIGS.length then "complete"
        else s.gameState,
      isChecking := false }
  else
    { s with
      cards := p.newCards.map (fun c =>
        if flippedUnmatched c then { c with isFlipped := false } else c),
      isChecking := false }

/-- Firing the oldest scheduled resolution timeout (timeouts share one delay,
so they fire in scheduling order); with no timeout pending, nothing
happens. -/
def fireResolution (s : EngineState) : EngineState :=
  match s.pending with
  | [] => s
  | p :: rest => resolutionCallback p { s with pending := rest }

/-- `startGame`: phase `"playing"`, a freshly created (randomly shuffled)
deck — a parameter here — zero matches, `isChecking` cleared.  It also clears
session storage (see `clearSessionStorage`).  The pending timeout queue is
untouched: `startGame` never cancels a scheduled resolution. -/
def startGame (newDeck : List MemoryCard) (s : EngineState) : EngineState :=
  { gameState := "playing", cards := newDeck, matchCount := 0,
    isChecking := false, pending := s.pending }

/-- The serializable shape of a card as written to session storage: the save
effect spreads the card, sets `icon: undefined` (dropped by
`JSON.stringify`) and adds `iconIndex = Math.floor(card.id / 2)`. -/
structure SavedCard where
  id : Nat
  isMatched : Bool
  isFlipped : Bool
  color : String
  iconIndex : Nat
deriving DecidableEq

/-- The string stored under the `memory_cards` key, seen through
`JSON.parse`: either a well-formed serialization (`good`, as
`JSON.stringify` always produces) or a string `JSON.parse` throws on
(`bad`). -/
inductive StoredCards where
  | good : List SavedCard → StoredCards
  | bad : StoredCards
deriving DecidableEq

/-- The four session-storage entries (`MEMORY_STORAGE_KEYS`), each possibly
absent.  The `memory_matches` slot holds `matches.toString()` and is read
back with `parseInt`; on every string the save effect writes, these compose
to the identity, so the slot is embedded as the number itself.  Likewise the
`memory_game_state` slot holds the phase string as-is (the load-side
`as GameState` cast is the identity) and `memory_is_checking` holds
`isChecking.toString()`. -/
structure Storage where
  gameState : Option GameState
  matchCount : Option Nat
  cards : Option StoredCards
  isChecking : Option Bool
deriving DecidableEq

/-- A storage with none of the four keys present. -/
def emptyStorage : Storage :=
  { gameState := none, matchCount := none, cards := none, isChecking := none }

/-- `clearSessionStorage`: removes all four engine-owned keys. -/
def clearSessionStorage (_ : Storage) : Storage :=
  emptyStorage

/-- The serializable record the save effect builds from a card:
`{ ...card, icon: undefined, iconIndex: Math.floor(card.id / 2) }`. -/
def serializeCard (c : MemoryCard) : SavedCard :=
  { id := c.id, isMatched := c.isMatched, isFlipped := c.isFlipped,
    color := c.color, iconIndex := c.id / 2 }

/-- The save effect (runs after every state change): writes the phase
string, `matches`, the serialized card array, and `isChecking` under their
keys. -/
def saveEffect (s : EngineState) (_ : Storage) : Storage :=
  { gameState := some s.gameState,
    matchCount := some s.matchCount,
    cards := some (StoredCards.good (s.cards.map serializeCard)),
    isChecking := some s.isChecking }

/-- Card restoration in the load effect:
`CARD_CONFIGS.find((_, i) => Math.floor(card.id / 2) === i)` is the config
at index `⌊id/2⌋` when that index exists, and `iconConfig?.icon || Heart`
falls back to `Heart` otherwise (icons are truthy object references). -/
def restoreCard (sc : SavedCard) : MemoryCard :=
  { id := sc.id, isMatched := sc.isMatched, isFlipped := sc.isFlipped,
    color := sc.color,
    icon := match CARD_CONFIGS[sc.id / 2]? with
      | some cfg => cfg.1
      | none => Icon.heart }

/-- The load effect (runs once at mount) over the current hook state `s`:
inside one `try` block it applies, in order, `setGameState` (when the phase
key is present), `setMatches` (when the matches key is present), and —
when the cards key is present — `JSON.parse` followed by `setCards` of the
restored cards.  A `JSON.parse` throw jumps to the `catch` (which only
logs), so the states already set remain and the card array is left as it
was.  The `memory_is_checking` key is never read. -/
def loadEffect (st : Storage) (s : EngineState) : EngineState :=
  let s1 := match st.gameState with
    | some g => { s with gameState := g }
    | none => s
  let s2 := match st.matchCount with
    | some m => { s1 with matchCount := m }
    | none => s1
  match st.cards with
  | some (StoredCards.good saved) => { s2 with cards := saved.map restoreCard }
  | some StoredCards.bad => s2
  | none => s2

/-- `handleComplete`: computes `score = matches * 100`, clears session
storage, and passes the score to the `onComplete` callback (returned
here). -/
def handleComplete (s : EngineState) (st : Storage) : Nat × Storage :=
  (s.matchCount * 100, clearSessionStorage st)

/-- One scheduler event: either a click on some index that does not throw,
or the firing of the oldest pending resolution timeout. -/
inductive Step : EngineState → EngineState → Prop where
  | click (i : Nat) (s s' : EngineState) :
      handleCardClick i s = Except.ok s' → Step s s'
  | fire (s : EngineState) : Step s (fireResolution s)

/-- Reachability by any sequence of click / timeout-fire events. -/
def Steps : EngineState → EngineState → Prop :=
  Relation.ReflTransGen Step

/-- The single-pending-resolution invariant: `isChecking` is set exactly
when a resolution timeout is pending, at most one timeout is ever pending,
and the pending closure's captured card array and match count are the
current ones. -/
def EngineInv (s : EngineState) : Prop :=
  (s.isChecking = true ↔ s.pending ≠ []) ∧
  s.pending.length ≤ 1 ∧
  ∀ p ∈ s.pending, p.newCards = s.cards ∧ p.capturedMatches = s.matchCount

/-! ### Helper lemmas -/

theorem mem_set_of_ne {α : Type} {l : List α} {i : Nat} {c ci x : α}
    (hc : c ∈ l) (hi : l[i]? = some ci) (hne : c ≠ ci) : c ∈ l.set i x := by
  rcases List.mem_iff_getElem?.1 hc with ⟨j, hj⟩
  rcases eq_or_ne i j with rfl | hij
  · rw [hi] at hj
    exact absurd (Option.some_inj.1 hj).symm hne
  · exact List.mem_iff_getElem?.2 ⟨j, by rw [List.getElem?_set_ne hij, hj]⟩

theorem mem_map_of_fixed {α : Type} {l : List α} {f : α → α} {c : α}
    (hc : c ∈ l) (hf : f c = c) : c ∈ l.map f :=
  hf ▸ List.mem_map_of_mem f hc

/-- Case analysis on a non-throwing `handleCardClick`: either a guarded
no-op, or the clicked card was present, unmatched and face-down and got
flipped — with or without a newly scheduled resolution. -/
theorem handleCardClick_ok_cases {i : Nat} {s s' : EngineState}
    (h : handleCardClick i s = Except.ok s') :
    s' = s ∨
    (s.isChecking = false ∧ ∃ c, s.cards[i]? = some c ∧
      c.isMatched = false ∧ c.isFlipped = false ∧
      ((s' = { s with cards := s.cards.set i { c with isFlipped := true } }) ∨
       (∃ c1 c2,
         (s.cards.set i { c with isFlipped := true }).filter flippedUnmatched
           = [c1, c2] ∧
         s' = { s with
           cards := s.cards.set i { c with isFlipped := true },
           isChecking := true,
           pending := s.pending ++
             [⟨s.cards.set i { c with isFlipped := true },
               c1.id / 2 == c2.id / 2, s.matchCount⟩] }))) := by
  unfold handleCardClick at h
  split at h
  · exact Or.inl (Except.ok.inj h).symm
  · rename_i hcheck
    split at h
    · exact absurd h (by simp)
    · rename_i c hc
      split at h
      · exact Or.inl (Except.ok.inj h).symm
      · rename_i hguard
        simp only [Bool.or_eq_true, not_or, Bool.not_eq_true] at hguard
        refine Or.inr ⟨by simpa using hcheck, c, hc, hguard.1, hguard.2, ?_⟩
        dsimp only at h
        split at h
        · rename_i c1 c2 hfil
          exact Or.inr ⟨c1, c2, hfil, (Except.ok.inj h).symm⟩
        · exact Or.inl (Except.ok.inj h).symm

theorem engineInv_click {i : Nat} {s s' : EngineState} (hinv : EngineInv s)
    (h : handleCardClick i s = Except.ok s') : EngineInv s' := by
  obtain ⟨hic, hlen, hcoh⟩ := hinv
  rcases handleCardClick_ok_cases h with rfl | ⟨hcheck, c, hc, _, _, hcase⟩
  · exact ⟨hic, hlen, hcoh⟩
  · have hnil : s.pending = [] := by
      by_contra hne
      exact absurd (hic.2 hne) (by simp [hcheck])
    rcases hcase with rfl | ⟨c1, c2, hfil, rfl⟩
    · refine ⟨by simpa [hcheck] using hic, by simpa using hlen, ?_⟩
      intro p hp
      rw [hnil] at hp
      cases hp
    · refine ⟨by simp [hnil], by simp [hnil], ?_⟩
      intro p hp
      rw [hnil] at hp
      simp at hp
      subst hp
      exact ⟨rfl, rfl⟩

theorem engineInv_fire {s : EngineState} (hinv : EngineInv s) :
    EngineInv (fireResolution s) := by
  obtain ⟨hic, hlen, hcoh⟩ := hinv
  unfold fireResolution
  split
  · exact ⟨hic, hlen, hcoh⟩
  · rename_i p rest hp
    have hrest : rest = [] := by
      rw [hp] at hlen
      cases rest with
      | nil => rfl
      | cons q t => simp only [List.length_cons] at hlen; omega
    subst hrest
    unfold resolutionCallback
    split <;> exact ⟨by simp, by simp, by simp⟩

theorem engineInv_step {s s' : EngineState} (hinv : EngineInv s)
    (h : Step s s') : EngineInv s' := by
  cases h with
  | click i s s' hc => exact engineInv_click hinv hc
  | fire s => exact engineInv_fire hinv

/-- A matched card survives a single non-throwing click. -/
theorem matched_mem_click {i : Nat} {s s' : EngineState}
    (h : handleCardClick i s = Except.ok s') {c : MemoryCard}
    (hc : c ∈ s.cards) (hm : c.isMatched = true) : c ∈ s'.cards := by
  rcases handleCardClick_ok_cases h with rfl | ⟨_, ci, hci, hcim, _, hcase⟩
  · exact hc
  · have hne : c ≠ ci := fun he => by rw [he, hcim] at hm; cases hm
    rcases hcase with rfl | ⟨c1, c2, _, rfl⟩ <;>
      exact mem_set_of_ne hc hci hne

/-- A matched card survives the firing of a coherent pending resolution. -/
theorem matched_mem_fire {s : EngineState} (hinv : EngineInv s)
    {c : MemoryCard} (hc : c ∈ s.cards) (hm : c.isMatched = true) :
    c ∈ (fireResolution s).cards := by
  obtain ⟨hic, hlen, hcoh⟩ := hinv
  unfold fireResolution
  split
  · exact hc
  · rename_i p rest hp
    have hpc : p.newCards = s.cards := (hcoh p (by rw [hp]; simp)).1
    unfold resolutionCallback
    split <;>
      exact mem_map_of_fixed (by rw [hpc]; exact hc)
        (by simp [flippedUnmatched, hm])

theorem matched_mem_step {s s' : EngineState} (hinv : EngineInv s)
    (h : Step s s') {c : MemoryCard} (hc : c ∈ s.cards)
    (hm : c.isMatched = true) : c ∈ s'.cards := by
  cases h with
  | click i s s' hcl => exact matched_mem_click hcl hc hm
  | fire s => exact matched_mem_fire hinv hc hm

/-- Along any click / fire trace from an invariant-respecting state, every
matched card stays in the deck unchanged, and the invariant is kept. -/
theorem matched_persists {s s' : EngineState} (hinv : EngineInv s)
    (h : Steps s s') {c : MemoryCard} (hc : c ∈ s.cards)
    (hm : c.isMatched = true) : c ∈ s'.cards ∧ EngineInv s' := by
  induction h with
  | refl => exact ⟨hc, hinv⟩
  | tail hab hbc ih =>
    obtain ⟨hcb, hinvb⟩ := ih
    exact ⟨matched_mem_step hinvb hbc hcb hm, engineInv_step hinvb hbc⟩

/-- A click on a present, unmatched, face-down card never throws and flips
exactly that card. -/
theorem handleCardClick_flip_cards {j : Nat} {s : EngineState} {c : MemoryCard}
    (hcheck : s.isChecking = false) (hc : s.cards[j]? = some c)
    (hm : c.isMatched = false) (hfp : c.isFlipped = false) :
    ∃ s', handleCardClick j s = Except.ok s' ∧
      s'.cards = s.cards.set j { c with isFlipped := true } := by
  unfold handleCardClick
  rw [hcheck, hc]
  simp only [Bool.false_eq_true, if_false]
  rw [hm, hfp]
  simp only [Bool.or_self, Bool.false_eq_true, if_false]
  split
  · exact ⟨_, rfl, rfl⟩
  · exact ⟨_, rfl, rfl⟩

/-- The update a matching resolution applies to each flipped-unmatched
card. -/
def markMatched (c : MemoryCard) : MemoryCard :=
  if flippedUnmatched c then { c with isMatched := true } else c

/-- The update a mismatching resolution applies to each flipped-unmatched
card. -/
def flipBack (c : MemoryCard) : MemoryCard :=
  if flippedUnmatched c then { c with isFlipped := false } else c

theorem fireResolution_match_eq {s : EngineState} {b : Bool} {m : Nat}
    (hp : s.pending = [⟨s.cards, b, m⟩]) (hb : b = true) :
    fireResolution s =
      { s with
        cards := s.cards.map markMatched,
        matchCount := m + 1,
        gameState :=
          if m + 1 = CARD_CONFIGS.length then "complete" else s.gameState,
        isChecking := false,
        pending := [] } := by
  unfold fireResolution
  rw [hp]
  unfold resolutionCallback
  subst hb
  simp only [if_true]
  rfl

theorem fireResolution_mismatch_eq {s : EngineState} {b : Bool} {m : Nat}
    (hp : s.pending = [⟨s.cards, b, m⟩]) (hb : b = false) :
    fireResolution s =
      { s with
        cards := s.cards.map flipBack,
        isChecking := false,
        pending := [] } := by
  unfold fireResolution
  rw [hp]
  unfold resolutionCallback
  subst hb
  simp only [Bool.false_eq_true, if_false]
  rfl

/-- Firing a single pending resolution always consumes it and clears
`isChecking`, whatever its outcome. -/
theorem fireResolution_consumes {s : EngineState} {p : Pending}
    (hp : s.pending = [p]) :
    (fireResolution s).pending = [] ∧ (fireResolution s).isChecking = false := by
  have heq : fireResolution s = resolutionCallback p { s with pending := [] } := by
    unfold fireResolution
    rw [hp]
  rw [heq]
  unfold resolutionCallback
  split
  · exact ⟨rfl, rfl⟩
  · exact ⟨rfl, rfl⟩

/-! ### Claim theorems -/

/-- C1: in a state whose flipped-and-unmatched cards are exactly two cards
sharing a pairKey (`⌊id/2⌋`), with the corresponding resolution pending, the
deferred resolution marks both cards `isMatched = true`, increments the match
count by exactly one, moves the phase to `"complete"` iff the new match
count equals the number of configured pairs (6), and both cards keep
`isFlipped = true` permanently: along every later click / resolution trace
they remain in the deck matched and face-up. -/
theorem match_resolution_spec (s : EngineState) (c1 c2 : MemoryCard)
    (hplay : s.gameState = "playing")
    (hf : s.cards.filter flippedUnmatched = [c1, c2])
    (hkey : c1.id / 2 = c2.id / 2)
    (hp : s.pending = [⟨s.cards, c1.id / 2 == c2.id / 2, s.matchCount⟩]) :
    ({ c1 with isMatched := true }) ∈ (fireResolution s).cards ∧
    ({ c2 with isMatched := true }) ∈ (fireResolution s).cards ∧
    c1.isFlipped = true ∧ c2.isFlipped = true ∧
    (fireResolution s).matchCount = s.matchCount + 1 ∧
    ((fireResolution s).gameState = "complete" ↔ s.matchCount + 1 = 6) ∧
    ∀ s', Steps (fireResolution s) s' →
      ({ c1 with isMatched := true }) ∈ s'.cards ∧
      ({ c2 with isMatched := true }) ∈ s'.cards := by
  have h1 : c1 ∈ s.cards.filter flippedUnmatched := by rw [hf]; simp
  have h2 : c2 ∈ s.cards.filter flippedUnmatched := by rw [hf]; simp
  have hm1 := List.of_mem_filter h1
  have hm2 := List.of_mem_filter h2
  have hmem1 := List.mem_of_mem_filter h1
  have hmem2 := List.mem_of_mem_filter h2
  simp only [flippedUnmatched, Bool.and_eq_true, Bool.not_eq_true'] at hm1 hm2
  have hfire := fireResolution_match_eq hp (by simp [hkey])
  have hmm1 : markMatched c1 = { c1 with isMatched := true } := by
    simp [markMatched, flippedUnmatched, hm1.1, hm1.2]
  have hmm2 : markMatched c2 = { c2 with isMatched := true } := by
    simp [markMatched, flippedUnmatched, hm2.1, hm2.2]
  have hin1 : ({ c1 with isMatched := true }) ∈ (fireResolution s).cards := by
    rw [hfire]
    exact hmm1 ▸ List.mem_map_of_mem markMatched hmem1
  have hin2 : ({ c2 with isMatched := true }) ∈ (fireResolution s).cards := by
    rw [hfire]
    exact hmm2 ▸ List.mem_map_of_mem markMatched hmem2
  have hinv : EngineInv (fireResolution s) := by
    rw [hfire]
    exact ⟨by simp, by simp, by simp⟩
  refine ⟨hin1, hin2, hm1.1, hm2.1, by rw [hfire], ?_, ?_⟩
  · rw [hfire]
    show (if s.matchCount + 1 = CARD_CONFIGS.length then "complete"
      else s.gameState) = "complete" ↔ s.matchCount + 1 = 6
    have hlen : CARD_CONFIGS.length = 6 := by simp [CARD_CONFIGS]
    rw [hlen]
    split
    · rename_i h
      exact ⟨fun _ => h, fun _ => rfl⟩
    · rename_i h
      rw [hplay]
      exact ⟨fun hc => absurd hc (by decide), fun hc => absurd hc h⟩
  · intro s' hs'
    exact ⟨(matched_persists hinv hs' hin1 rfl).1,
           (matched_persists hinv hs' hin2 rfl).1⟩

/-- A pair of face-up Heart cards (ids 0 and 1, pairKey 0). -/
def cardA : MemoryCard :=
  { id := 0, icon := Icon.heart, isMatched := false, isFlipped := true,
    color := "text-rose-500" }

def cardB : MemoryCard :=
  { id := 1, icon := Icon.heart, isMatched := false, isFlipped := true,
    color := "text-rose-500" }

/-- A face-up Star card (id 2, pairKey 1). -/
def cardC : MemoryCard :=
  { id := 2, icon := Icon.star, isMatched := false, isFlipped := true,
    color := "text-amber-500" }

/-- A two-card playing state with the matching pair flipped and its
resolution pending. -/
def matchPendingState : EngineState :=
  { gameState := "playing", cards := [cardA, cardB], matchCount := 5,
    isChecking := true, pending := [⟨[cardA, cardB], true, 5⟩] }

/-- Witness for `match_resolution_spec` at `matchPendingState`. -/
theorem match_resolution_spec_witness :
    (matchPendingState.gameState = "playing" ∧
     matchPendingState.cards.filter flippedUnmatched = [cardA, cardB] ∧
     cardA.id / 2 = cardB.id / 2 ∧
     matchPendingState.pending =
       [⟨matchPendingState.cards, cardA.id / 2 == cardB.id / 2,
         matchPendingState.matchCount⟩]) ∧
    (({ cardA with isMatched := true }) ∈
        (fireResolution matchPendingState).cards ∧
     ({ cardB with isMatched := true }) ∈
        (fireResolution matchPendingState).cards ∧
     cardA.isFlipped = true ∧ cardB.isFlipped = true ∧
     (fireResolution matchPendingState).matchCount =
       matchPendingState.matchCount + 1 ∧
     ((fireResolution matchPendingState).gameState = "complete" ↔
       matchPendingState.matchCount + 1 = 6) ∧
     ∀ s', Steps (fireResolution matchPendingState) s' →
       ({ cardA with isMatched := true }) ∈ s'.cards ∧
       ({ cardB with isMatched := true }) ∈ s'.cards) :=
  ⟨⟨by decide, by decide, by decide, by decide⟩,
   match_resolution_spec matchPendingState cardA cardB
     (by decide) (by decide) (by decide) (by decide)⟩

/-- C2: in a state whose flipped-and-unmatched cards are exactly two cards
with different pairKeys, with the corresponding resolution pending, the
deferred resolution flips both back face-down, leaves the match count and
phase unchanged, clears `isChecking`, and both cards can be flipped again:
a click on their index succeeds and re-flips them. -/
theorem mismatch_resolution_spec (s : EngineState) (c1 c2 : MemoryCard)
    (hf : s.cards.filter flippedUnmatched = [c1, c2])
    (hkey : c1.id / 2 ≠ c2.id / 2)
    (hp : s.pending = [⟨s.cards, c1.id / 2 == c2.id / 2, s.matchCount⟩]) :
    ({ c1 with isFlipped := false }) ∈ (fireResolution s).cards ∧
    ({ c2 with isFlipped := false }) ∈ (fireResolution s).cards ∧
    (fireResolution s).matchCount = s.matchCount ∧
    (fireResolution s).gameState = s.gameState ∧
    (fireResolution s).isChecking = false ∧
    (∃ j s', (fireResolution s).cards[j]? = some { c1 with isFlipped := false } ∧
      handleCardClick j (fireResolution s) = Except.ok s' ∧
      s'.cards = (fireResolution s).cards.set j { c1 with isFlipped := true }) ∧
    (∃ j s', (fireResolution s).cards[j]? = some { c2 with isFlipped := false } ∧
      handleCardClick j (fireResolution s) = Except.ok s' ∧
      s'.cards = (fireResolution s).cards.set j { c2 with isFlipped := true }) := by
  have h1 : c1 ∈ s.cards.filter flippedUnmatched := by rw [hf]; simp
  have h2 : c2 ∈ s.cards.filter flippedUnmatched := by rw [hf]; simp
  have hm1 := List.of_mem_filter h1
  have hm2 := List.of_mem_filter h2
  have hmem1 := List.mem_of_mem_filter h1
  have hmem2 := List.mem_of_mem_filter h2
  simp only [flippedUnmatched, Bool.and_eq_true, Bool.not_eq_true'] at hm1 hm2
  have hfire := fireResolution_mismatch_eq hp (by simp [hkey])
  have hfb1 : flipBack c1 = { c1 with isFlipped := false } := by
    simp [flipBack, flippedUnmatched, hm1.1, hm1.2]
  have hfb2 : flipBack c2 = { c2 with isFlipped := false } := by
    simp [flipBack, flippedUnmatched, hm2.1, hm2.2]
  have hcheck : (fireResolution s).isChecking = false := by rw [hfire]
  have flippable : ∀ c : MemoryCard, c ∈ s.cards → flipBack c = { c with isFlipped := false } →
      c.isMatched = false →
      ∃ j s', (fireResolution s).cards[j]? = some { c with isFlipped := false } ∧
        handleCardClick j (fireResolution s) = Except.ok s' ∧
        s'.cards = (fireResolution s).cards.set j { c with isFlipped := true } := by
    intro c hmem hfb hm
    rcases List.mem_iff_getElem?.1 hmem with ⟨j, hj⟩
    have hj' : (fireResolution s).cards[j]? = some { c with isFlipped := false } := by
      rw [hfire]
      show (s.cards.map flipBack)[j]? = _
      rw [List.getElem?_map, hj]
      simp [hfb]
    obtain ⟨s', hclick, hcards⟩ :=
      handleCardClick_flip_cards hcheck hj'
        (show ({ c with isFlipped := false }).isMatched = false from hm) rfl
    exact ⟨j, s', hj', hclick, hcards⟩
  refine ⟨?_, ?_, by rw [hfire], by rw [hfire], hcheck,
    flippable c1 hmem1 hfb1 hm1.2, flippable c2 hmem2 hfb2 hm2.2⟩
  · rw [hfire]
    exact hfb1 ▸ List.mem_map_of_mem flipBack hmem1
  · rw [hfire]
    exact hfb2 ▸ List.mem_map_of_mem flipBack hmem2

/-- A two-card playing state with two different-pair cards flipped and the
mismatch resolution pending. -/
def mismatchPendingState : EngineState :=
  { gameState := "playing", cards := [cardA, cardC], matchCount := 2,
    isChecking := true, pending := [⟨[cardA, cardC], false, 2⟩] }

/-- Witness for `mismatch_resolution_spec` at `mismatchPendingState`. -/
theorem mismatch_resolution_spec_witness :
    (mismatchPendingState.cards.filter flippedUnmatched = [cardA, cardC] ∧
     cardA.id / 2 ≠ cardC.id / 2 ∧
     mismatchPendingState.pending =
       [⟨mismatchPendingState.cards, cardA.id / 2 == cardC.id / 2,
         mismatchPendingState.matchCount⟩]) ∧
    (({ cardA with isFlipped := false }) ∈
        (fireResolution mismatchPendingState).cards ∧
     ({ cardC with isFlipped := false }) ∈
        (fireResolution mismatchPendingState).cards ∧
     (fireResolution mismatchPendingState).matchCount =
       mismatchPendingState.matchCount ∧
     (fireResolution mismatchPendingState).gameState =
       mismatchPendingState.gameState ∧
     (fireResolution mismatchPendingState).isChecking = false ∧
     (∃ j s', (fireResolution mismatchPendingState).cards[j]? =
         some { cardA with isFlipped := false } ∧
       handleCardClick j (fireResolution mismatchPendingState) =
         Except.ok s' ∧
       s'.cards = (fireResolution mismatchPendingState).cards.set j
         { cardA with isFlipped := true }) ∧
     (∃ j s', (fireResolution mismatchPendingState).cards[j]? =
         some { cardC with isFlipped := false } ∧
       handleCardClick j (fireResolution mismatchPendingState) =
         Except.ok s' ∧
       s'.cards = (fireResolution mismatchPendingState).cards.set j
         { cardC with isFlipped := true })) :=
  ⟨⟨by decide, by decide, by decide⟩,
   mismatch_resolution_spec mismatchPendingState cardA cardC
     (by decide) (by decide) (by decide)⟩

/-- C3 (code bug): the guard `isChecking || cards[clickedIndex].isMatched ||
cards[clickedIndex].isFlipped` reads a property of `undefined` when the
index is out of range and `isChecking` is false, so instead of the spec's
required silent no-op the click throws a `TypeError`.  Evaluated here at the
fresh 12-card playing state and index 12. -/
theorem flip_out_of_range_throws :
    handleCardClick 12 { initState createCardsBase with gameState := "playing" }
      = Except.error JsError.typeError ∧
    (initState createCardsBase).cards.length = 12 := by
  exact ⟨rfl, rfl⟩

/-- C4: along every click / fire trace from a state satisfying the
single-pending invariant (the initial state does), the invariant is
maintained — `isChecking` is set exactly while a resolution is pending, at
most one resolution is ever pending, and the pending closure's captured deck
is the current deck — and whenever a resolution is pending, firing it
consumes it (it fires exactly once) and clears `isChecking`. -/
theorem single_pending_invariant (s s' : EngineState)
    (hinv : EngineInv s) (h : Steps s s') :
    EngineInv s' ∧
    (s'.pending ≠ [] →
      (fireResolution s').pending = [] ∧
      (fireResolution s').isChecking = false) := by
  have hinv' : EngineInv s' := by
    induction h with
    | refl => exact hinv
    | tail hab hbc ih => exact engineInv_step ih hbc
  refine ⟨hinv', fun hne => ?_⟩
  obtain ⟨_, hlen, _⟩ := hinv'
  match hp : s'.pending with
  | [] => exact absurd hp hne
  | p :: rest =>
    have hrest : rest = [] := by
      rw [hp] at hlen
      cases rest with
      | nil => rfl
      | cons q t => simp only [List.length_cons] at hlen; omega
    subst hrest
    exact fireResolution_consumes hp

/-- Witness for `single_pending_invariant`: the initial state itself. -/
theorem single_pending_invariant_witness :
    (EngineInv (initState createCardsBase) ∧
     Steps (initState createCardsBase) (initState createCardsBase)) ∧
    (EngineInv (initState createCardsBase) ∧
     ((initState createCardsBase).pending ≠ [] →
       (fireResolution (initState createCardsBase)).pending = [] ∧
       (fireResolution (initState createCardsBase)).isChecking = false)) :=
  ⟨⟨⟨by simp [initState], by simp [initState], by simp [initState]⟩,
    Relation.ReflTransGen.refl⟩,
   single_pending_invariant (initState createCardsBase) (initState createCardsBase)
     ⟨by simp [initState], by simp [initState], by simp [initState]⟩
     Relation.ReflTransGen.refl⟩

/-- A two-card playing state with a matching resolution pending, about to be
superseded by `startGame`. -/
def supersededState : EngineState :=
  { gameState := "playing", cards := [cardA, cardB], matchCount := 0,
    isChecking := true, pending := [⟨[cardA, cardB], true, 0⟩] }

/-- C6 (code bug): `startGame` does not cancel the scheduled resolution
timeout, and the callback writes back the card array it captured; firing the
stale callback after a restart therefore replaces the fresh deck with the
superseded deck's resolved cards and bumps the fresh game's match count to
1. -/
theorem stale_callback_corrupts_new_deck :
    (startGame createCardsBase supersededState).cards = createCardsBase ∧
    (startGame createCardsBase supersededState).matchCount = 0 ∧
    (fireResolution (startGame createCardsBase supersededState)).cards
      ≠ createCardsBase ∧
    (fireResolution (startGame createCardsBase supersededState)).matchCount
      = 1 := by
  exact ⟨rfl, rfl, by decide, rfl⟩

/-- C7: every deck `createCards` can return — any permutation of the
pre-shuffle pair list — has length 2 × 6 = 12, contains each pairKey
`⌊id/2⌋ = k < 6` exactly twice, namely once with id `2k` and once with id
`2k+1`, and every card starts face-down and unmatched. -/
theorem createCards_deck_properties (d : List MemoryCard)
    (hperm : d.Perm createCardsBase) :
    d.length = 12 ∧
    (∀ k, k < 6 → (d.filter (fun c => c.id / 2 == k)).length = 2) ∧
    (∀ k, k < 6 → (d.filter (fun c => c.id == 2 * k)).length = 1 ∧
      (d.filter (fun c => c.id == 2 * k + 1)).length = 1) ∧
    (∀ c ∈ d, c.isFlipped = false ∧ c.isMatched = false) := by
  refine ⟨by rw [hperm.length_eq]; decide, fun k hk => ?_, fun k hk => ?_,
    fun c hc => ?_⟩
  · rw [(hperm.filter _).length_eq]
    revert hk
    revert k
    decide
  · rw [(hperm.filter _).length_eq, (hperm.filter _).length_eq]
    revert hk
    revert k
    decide
  · have hbase : ∀ c ∈ createCardsBase,
        c.isFlipped = false ∧ c.isMatched = false := by decide
    exact hbase c (hperm.mem_iff.1 hc)

/-- Witness for `createCards_deck_properties`: the identity permutation of
the pre-shuffle list. -/
theorem createCards_deck_properties_witness :
    createCardsBase.Perm createCardsBase ∧
    (createCardsBase.length = 12 ∧
     (∀ k, k < 6 →
       (createCardsBase.filter (fun c => c.id / 2 == k)).length = 2) ∧
     (∀ k, k < 6 →
       (createCardsBase.filter (fun c => c.id == 2 * k)).length = 1 ∧
       (createCardsBase.filter (fun c => c.id == 2 * k + 1)).length = 1) ∧
     (∀ c ∈ createCardsBase, c.isFlipped = false ∧ c.isMatched = false)) :=
  ⟨List.Perm.refl createCardsBase,
   createCards_deck_properties createCardsBase (List.Perm.refl createCardsBase)⟩

/-- C8: `handleComplete` yields `matches * 100` to the completion callback
and clears all persisted keys, for every state — in particular it performs
no check that the phase is `"complete"`: states differing only in phase
produce the same result. -/
theorem handleComplete_spec (s : EngineState) (st : Storage) :
    handleComplete s st = (s.matchCount * 100, emptyStorage) ∧
    ∀ g : GameState, handleComplete { s with gameState := g } st
      = handleComplete s st :=
  ⟨rfl, fun _ => rfl⟩

theorem map_id_of_mem {α : Type} {l : List α} {f : α → α}
    (h : ∀ x ∈ l, f x = x) : l.map f = l := by
  induction l with
  | nil => rfl
  | cons a t ih =>
    rw [List.map_cons, h a (List.mem_cons_self a t),
      ih (fun x hx => h x (List.mem_cons_of_mem a hx))]

/-- A saved playing state that is mid-resolution (`isChecking = true`). -/
def midResolutionState : EngineState :=
  { gameState := "playing", cards := [cardA, cardC], matchCount := 2,
    isChecking := true, pending := [] }

/-- C5 counterexample: the save effect writes the `memory_is_checking` key
but the load effect never reads it, so a snapshot taken mid-resolution
(`isChecking = true`) loads back with `isChecking = false` (the initial hook
value): the round trip does not reproduce isResolving. -/
theorem save_load_isChecking_counterexample :
    midResolutionState.isChecking = true ∧
    (loadEffect (saveEffect midResolutionState emptyStorage)
      (initState createCardsBase)).isChecking = false := by
  exact ⟨rfl, rfl⟩

/-- C5 amended: saving and then loading reproduces the phase, the match
count and every card — ids, flags, colors, and the icon whenever each card's
icon is the one derived from its id (true of every factory deck) — while
`isChecking` is not restored and keeps the value of the state being loaded
into (`false` at initialization). -/
theorem save_load_roundtrip (s t : EngineState) (st : Storage)
    (hicon : ∀ c ∈ s.cards,
      c.icon = (match CARD_CONFIGS[c.id / 2]? with
        | some cfg => cfg.1
        | none => Icon.heart)) :
    (loadEffect (saveEffect s st) t).gameState = s.gameState ∧
    (loadEffect (saveEffect s st) t).matchCount = s.matchCount ∧
    (loadEffect (saveEffect s st) t).cards = s.cards ∧
    (loadEffect (saveEffect s st) t).isChecking = t.isChecking := by
  refine ⟨rfl, rfl, ?_, rfl⟩
  show (s.cards.map serializeCard).map restoreCard = s.cards
  rw [List.map_map]
  apply map_id_of_mem
  intro c hc
  have hi := hicon c hc
  cases c with
  | mk id icon isM isF color =>
    show restoreCard (serializeCard ⟨id, icon, isM, isF, color⟩) = _
    unfold restoreCard serializeCard
    simp only at hi ⊢
    rw [← hi]

/-- A playing state whose deck is the (icon-correct) factory deck. -/
def roundTripState : EngineState :=
  { gameState := "playing", cards := createCardsBase, matchCount := 3,
    isChecking := false, pending := [] }

/-- Witness for `save_load_roundtrip` at `roundTripState`. -/
theorem save_load_roundtrip_witness :
    (∀ c ∈ roundTripState.cards,
      c.icon = (match CARD_CONFIGS[c.id / 2]? with
        | some cfg => cfg.1
        | none => Icon.heart)) ∧
    ((loadEffect (saveEffect roundTripState emptyStorage)
        (initState createCardsBase)).gameState = roundTripState.gameState ∧
     (loadEffect (saveEffect roundTripState emptyStorage)
        (initState createCardsBase)).matchCount = roundTripState.matchCount ∧
     (loadEffect (saveEffect roundTripState emptyStorage)
        (initState createCardsBase)).cards = roundTripState.cards ∧
     (loadEffect (saveEffect roundTripState emptyStorage)
        (initState createCardsBase)).isChecking
       = (initState createCardsBase).isChecking) :=
  ⟨by decide,
   save_load_roundtrip roundTripState (initState createCardsBase) emptyStorage
     (by decide)⟩

/-- A storage whose phase and match-count entries are readable but whose
card entry fails `JSON.parse`. -/
def badCardsStorage : Storage :=
  { gameState := some "playing", matchCount := some 3,
    cards := some StoredCards.bad, isChecking := none }

/-- C9 counterexample: on `badCardsStorage` the load effect does not fall
back to the fresh Ready/empty state: the phase and match count set before
the parse failure stay restored (`"playing"`, 3) while only the deck keeps
its fresh value — a partially restored state. -/
theorem load_partial_restore_counterexample :
    (loadEffect badCardsStorage (initState createCardsBase)).gameState
      = "playing" ∧
    (loadEffect badCardsStorage (initState createCardsBase)).matchCount = 3 ∧
    (initState createCardsBase).gameState = "ready" ∧
    (initState createCardsBase).matchCount = 0 ∧
    loadEffect badCardsStorage (initState createCardsBase)
      ≠ initState createCardsBase := by
  exact ⟨rfl, rfl, rfl, rfl, by decide⟩

/-- C9 amended: a card entry that fails to parse is caught inside the `try`
(the load is total and only logs), and the failing value is treated as
absent — the in-memory deck is kept — but values applied before the failure
are not rolled back: the phase and match count entries, when present, remain
restored. -/
theorem load_parse_failure (st : Storage) (s : EngineState)
    (hbad : st.cards = some StoredCards.bad) :
    (loadEffect st s).cards = s.cards ∧
    (loadEffect st s).isChecking = s.isChecking ∧
    (loadEffect st s).gameState
      = (match st.gameState with | some g => g | none => s.gameState) ∧
    (loadEffect st s).matchCount
      = (match st.matchCount with | some m => m | none => s.matchCount) := by
  unfold loadEffect
  rw [hbad]
  cases hg : st.gameState <;> cases hm : st.matchCount <;>
    exact ⟨rfl, rfl, rfl, rfl⟩

/-- Witness for `load_parse_failure` at `badCardsStorage`. -/
theorem load_parse_failure_witness :
    badCardsStorage.cards = some StoredCards.bad ∧
    ((loadEffect badCardsStorage (initState createCardsBase)).cards
        = (initState createCardsBase).cards ∧
     (loadEffect badCardsStorage (initState createCardsBase)).isChecking
        = (initState createCardsBase).isChecking ∧
     (loadEffect badCardsStorage (initState createCardsBase)).gameState
        = (match badCardsStorage.gameState with
           | some g => g
           | none => (initState createCardsBase).gameState) ∧
     (loadEffect badCardsStorage (initState createCardsBase)).matchCount
        = (match badCardsStorage.matchCount with
           | some m => m
           | none => (initState createCardsBase).matchCount)) :=
  ⟨rfl, load_parse_failure badCardsStorage (initState createCardsBase) rfl⟩

/-- C10: restoring a snapshot card whose id lies outside the configured
range (id ≥ 2 × 6) is not rejected: the card is restored with its id and
flags intact and silently receives the first symbol, Heart. -/
theorem restore_unknown_id_defaults_heart (sc : SavedCard)
    (h : 12 ≤ sc.id) :
    restoreCard sc =
      { id := sc.id, icon := Icon.heart, isMatched := sc.isMatched,
        isFlipped := sc.isFlipped, color := sc.color } := by
  unfold restoreCard
  have hnone : CARD_CONFIGS[sc.id / 2]? = none := by
    apply List.getElem?_eq_none
    show CARD_CONFIGS.length ≤ sc.id / 2
    have h6 : (6 : Nat) ≤ sc.id / 2 := by omega
    simpa [CARD_CONFIGS] using h6
  rw [hnone]

/-- Witness for `restore_unknown_id_defaults_heart` at a card with id 15. -/
theorem restore_unknown_id_defaults_heart_witness :
    12 ≤ (15 : Nat) ∧
    restoreCard ⟨15, true, false, "text-rose-500", 7⟩ =
      { id := 15, icon := Icon.heart, isMatched := true,
        isFlipped := false, color := "text-rose-500" } :=
  ⟨by decide, restore_unknown_id_defaults_heart
    ⟨15, true, false, "text-rose-500", 7⟩ (by decide)⟩

end MemoryGame
